import Mathlib

/-!
# gomigration: the migrate command-line tool and the catalog listing handlers

A shallow embedding of `migrate/main.go` (the command-line tool that drives
the golang-migrate engine) and of the two HTTP handlers of `api/main.go`.

* Go's `int` is modelled as `Int` restricted to the 64-bit two's-complement
  range; negation wraps (`negInt`).
* `os.Args` is a `List String`.
* The external engine (`migrate.New`, `(*Migrate).Steps`) is a parameter of
  the tool (`Env`), and so is the wording of the scanner errors; where a
  property depends on what the engine does, `Steps` of the golang-migrate
  library is modelled and plugged in (`engineEnv`).
* Command-line arguments are valid Unicode and shorter than the 2^30 runes
  after which the scanner of `fmt` stops reading one operand.
* Everything the process does that can be observed from outside is recorded
  as a trace of `Event`s together with the exit code.
-/

namespace GoMigration

/-! ## Go `int` -/

/-- The width of Go `int` on the modelled (64-bit) platform. -/
def intBits : Nat := 64

/-- Smallest value of Go `int`. -/
def minInt : Int := -(2 ^ (intBits - 1))

/-- Largest value of Go `int`. -/
def maxInt : Int := 2 ^ (intBits - 1) - 1

/-- Two's-complement wrap of a mathematical integer into Go `int`. -/
def wrapInt (x : Int) : Int := (x + 2 ^ (intBits - 1)) % 2 ^ intBits - 2 ^ (intBits - 1)

/-- Go unary minus on `int` (the expression `-steps` of `main`). -/
def negInt (x : Int) : Int := wrapInt (-x)

/-! ## `fmt.Sscanf(arg, "%d", &steps)`

The scanner of the Go standard library (`fmt/scan.go`), specialised to the
format `%d` with one `*int` operand, reading from a string. -/

/-- Errors `fmt.Sscanf(_, "%d", _)` can report. -/
inductive ScanError where
  /-- Input exhausted where a sign or a digit was required. -/
  | eof
  /-- A newline met while skipping leading space. -/
  | unexpectedNewline
  /-- The first rune of the number is not a decimal digit. -/
  | expectedInteger
  /-- The token is well formed and `strconv.ParseInt` reports a range error. -/
  | outOfRange (tok : String)
  deriving DecidableEq, Repr

/-- The space table of `fmt/scan.go` (`isSpace`). -/
def isSpace (c : Char) : Bool :=
  let n := c.toNat
  (0x0009 ≤ n && n ≤ 0x000d) || n == 0x0020 || n == 0x0085 || n == 0x00a0 ||
  n == 0x1680 || (0x2000 ≤ n && n ≤ 0x200a) || n == 0x2028 || n == 0x2029 ||
  n == 0x202f || n == 0x205f || n == 0x3000

/-- The method `(*ss).SkipSpace` with `nlIsSpace = false`: drops leading space,
fails on a newline, stops before the first rune that is not space. -/
def skipSpace : List Char → Except ScanError (List Char)
  | [] => .ok []
  | c :: cs =>
    if c = '\r' ∧ cs.head? = some '\n' then skipSpace cs
    else if c = '\n' then .error .unexpectedNewline
    else if isSpace c then skipSpace cs
    else .ok (c :: cs)

/-- Membership in `decimalDigits = "0123456789"`. -/
def isDecimalDigit (c : Char) : Bool := '0'.toNat ≤ c.toNat && c.toNat ≤ '9'.toNat

/-- Membership in `sign = "+-"`. -/
def isSign (c : Char) : Bool := c = '+' || c = '-'

/-- The value of a run of decimal digits, most significant first. -/
def decimalValue (ds : List Char) : Nat :=
  ds.foldl (fun acc c => 10 * acc + (c.toNat - '0'.toNat)) 0

/-- The function `strconv.ParseInt(tok, 10, 64)` on a token made of an optional
sign and at least one decimal digit (the only tokens `scanNumber` hands over):
the value, or a range error. -/
def parseInt (sign : Option Char) (ds : List Char) : Except ScanError Int :=
  let un : Nat := decimalValue ds
  let tok := String.mk (sign.toList ++ ds)
  if sign = some '-' then
    if un > 2 ^ (intBits - 1) then .error (.outOfRange tok) else .ok (-(un : Int))
  else
    if un ≥ 2 ^ (intBits - 1) then .error (.outOfRange tok) else .ok (un : Int)

/-- The method `(*ss).scanNumber` after the optional sign: there must be input,
its first rune must be a digit, and the token is the longest run of digits. -/
def scanNumber (sign : Option Char) : List Char → Except ScanError Int
  | [] => .error .eof
  | c :: cs =>
    if isDecimalDigit c then parseInt sign ((c :: cs).takeWhile isDecimalDigit)
    else .error .expectedInteger

/-- The method `(*ss).scanInt` for the verb `d` after leading space is gone:
`notEOF`, `accept(sign)`, `scanNumber`, `ParseInt`. What follows the token is
left unread and is not an error for `Sscanf`. -/
def scanInt : List Char → Except ScanError Int
  | [] => .error .eof
  | c :: cs => if isSign c then scanNumber (some c) cs else scanNumber none (c :: cs)

/-- The call `fmt.Sscanf(arg, "%d", &steps)`: the scanned value, or the error. -/
def sscanfInt (arg : String) : Except ScanError Int :=
  match skipSpace arg.toList with
  | .error e => .error e
  | .ok rest => scanInt rest

instance instDecidableEqExcept {ε α : Type} [DecidableEq ε] [DecidableEq α] :
    DecidableEq (Except ε α)
  | .ok a, .ok b => if h : a = b then isTrue (by rw [h]) else isFalse (by intro h1; cases h1; exact h rfl)
  | .error a, .error b =>
    if h : a = b then isTrue (by rw [h]) else isFalse (by intro h1; cases h1; exact h rfl)
  | .ok _, .error _ => isFalse (by intro h; cases h)
  | .error _, .ok _ => isFalse (by intro h; cases h)

/-! ## The engine as seen by the tool -/

/-- What `m.Steps(n)` returns: `nil`, the sentinel `migrate.ErrNoChange`, or any
other error, with its text. -/
inductive StepsResult where
  | nil
  | errNoChange
  | other (text : String)
  deriving DecidableEq, Repr

/-- The external collaborators of `main`. -/
structure Env where
  /-- The error of `migrate.New(migrationsPath, dbURL)`, `none` when the
  instance was created. -/
  newErr : Option String
  /-- The result of `m.Steps(n)`. -/
  Steps : Int → StepsResult
  /-- The text the Go library gives a scan error (`err.Error()`). -/
  scanErrorText : ScanError → String

/-- Observable actions of one run of the tool, in order. -/
inductive Event where
  /-- The call `migrate.New`, which opens the source and the database. -/
  | migrateNew
  /-- The call `m.Steps(n)`. -/
  | steps (n : Int)
  /-- A line written to standard output. -/
  | stdout (line : String)
  /-- The deferred `m.Close()`, run when `main` returns. -/
  | close
  /-- A call of `log.Fatal`/`log.Fatalf` with the formatted message; the process
  exits with status 1 and deferred calls do not run. -/
  | fatal (msg : String)
  deriving DecidableEq, Repr

/-- One run of the tool: what it did and its exit status. -/
structure Run where
  trace : List Event
  exitCode : Nat
  deriving DecidableEq, Repr

/-- The result of `log.Fatal`/`log.Fatalf` after the events `pre`. -/
def fatalRun (pre : List Event) (msg : String) : Run :=
  ⟨pre ++ [Event.fatal msg], 1⟩

/-- Lines 40-47 of `main`: `rest` is `os.Args[2:]`. The step count is 1 when no
argument is given, otherwise what `Sscanf` reads from `os.Args[2]`. -/
def parseSteps (rest : List String) : Except ScanError Int :=
  match rest with
  | [] => .ok 1
  | arg :: _ => sscanfInt arg

/-- Lines 64-73 of `main`: the handling of the error of `m.Steps`, after the
events `pre`. -/
def handleResult (pre : List Event) (command : String) (r : StepsResult) : Run :=
  match r with
  | .nil =>
    ⟨pre ++ [Event.stdout ("Migration " ++ command ++ " successful!"), Event.close], 0⟩
  | .errNoChange => ⟨pre ++ [Event.stdout "No changes applied.", Event.close], 0⟩
  | .other text => fatalRun pre ("Migration failed: " ++ text)

/-- The function `main` of `migrate/main.go`. -/
def main (env : Env) (args : List String) : Run :=
  match env.newErr with
  | some e => fatalRun [Event.migrateNew] ("Unable to create migrate instance: " ++ e)
  | none =>
    match args with
    | [] => fatalRun [Event.migrateNew] "Please specify \x27up\x27 or \x27down\x27 as the first argument"
    | [_] => fatalRun [Event.migrateNew] "Please specify \x27up\x27 or \x27down\x27 as the first argument"
    | _ :: command :: rest =>
      match parseSteps rest with
      | .error e => fatalRun [Event.migrateNew] ("Invalid number of steps: " ++ env.scanErrorText e)
      | .ok steps =>
        if command = "up" then
          handleResult [Event.migrateNew, Event.steps steps] command (env.Steps steps)
        else if command = "down" then
          handleResult [Event.migrateNew, Event.steps (negInt steps)] command
            (env.Steps (negInt steps))
        else
          fatalRun [Event.migrateNew]
            ("Unknown command: " ++ command ++ ". Use \x27up\x27 or \x27down\x27")

/-- Whether the run called `m.Steps` at all. -/
def callsSteps (r : Run) : Bool :=
  r.trace.any (fun e => match e with | Event.steps _ => true | _ => false)

/-- Whether the run called `migrate.New`, which opens the migration source and
connects to the database. -/
def opensInstance (r : Run) : Bool := r.trace.contains Event.migrateNew

/-- Whether the run ended in `log.Fatal`/`log.Fatalf`. -/
def isFatal (r : Run) : Bool :=
  match r.trace.getLast? with
  | some (Event.fatal _) => true
  | _ => false


/-! ## The engine: `(*Migrate).Steps` of golang-migrate

`main.go` imports its engine from the library
`github.com/golang-migrate/migrate/v4`, whose code is not among the files of
this repository. The definitions of this section follow `migrate.go` of that
library: `Steps`, `readUp`, `readDown`, `versionExists`, `newMigration` and
`runMigrations`.

* The lock is taken and released without error, the database driver's
  `Version` and `SetVersion` succeed, the source driver fails only with
  "not exist", and no graceful stop is signalled.
* The reading goroutine sends its migrations, and then its error if any, over a
  channel that `runMigrations` receives from in order; the model hands over
  the same sequence as a list with an optional final error.
* The version of the database is `none` for `database.NilVersion` (-1). -/

/-- One version of the migration source, with the files it has. -/
structure SourceMigration where
  version : Nat
  up : Bool
  down : Bool
  deriving DecidableEq, Repr

/-- The index of the source driver: the versions found, sorted, no version
twice (the driver refuses a duplicate when the source is opened). -/
structure Source where
  index : List SourceMigration
  increasing : index.Pairwise (fun a b => a.version < b.version)

/-- The library's `Migration`: the version whose file is run, the version the
database is set to, and whether a body was found (an "empty" migration has
none). -/
structure Migration where
  version : Nat
  targetVersion : Option Nat
  hasBody : Bool
  deriving DecidableEq, Repr

/-- The state of the database: the stored version and dirty flag, and the log
of the migrations applied so far, in order. -/
structure Database where
  version : Option Nat
  dirty : Bool
  applied : List Migration
  deriving DecidableEq, Repr

/-- The errors `Steps` returns. -/
inductive EngineError where
  /-- The sentinel `ErrNoChange`. -/
  | errNoChange
  /-- The error `ErrDirty{Version}`. -/
  | errDirty (version : Int)
  /-- The error `ErrShortLimit{Short}`. -/
  | errShortLimit (short : Nat)
  /-- The sentinel `os.ErrNotExist`. -/
  | errNotExist
  /-- The error of `versionExists`: neither file of the version is found. -/
  | noMigrationFound (version : Nat)
  /-- The "not exist" error of the source driver itself, as `First` returns it
  on an empty source. -/
  | sourceNotExist
  /-- The error of the database driver's `Run` on the body of a migration. -/
  | runFailed (text : String)
  deriving DecidableEq, Repr

/-- The engine's collaborators. -/
structure Engine where
  source : Source
  /-- The error of `databaseDrv.Run` on the body of a migration, if any. -/
  exec : Migration → Option String
  /-- The text of the source driver's "not exist" error: for `First` (`none`)
  or for the files of a version. -/
  driverErrorText : Option Nat → String

/-- The version as the Go `int` the drivers use: -1 for the nil version. -/
def versionInt : Option Nat → Int
  | none => -1
  | some v => (v : Int)

/-- The method `Error()` of the engine's errors. -/
def EngineError.text (eng : Engine) : EngineError → String
  | .errNoChange => "no change"
  | .errDirty v => "Dirty database version " ++ toString v ++ ". Fix and force version."
  | .errShortLimit n => "limit " ++ toString n ++ " short"
  | .errNotExist => "file does not exist"
  | .noMigrationFound v =>
    "no migration found for version " ++ toString v ++ ": " ++ eng.driverErrorText (some v)
  | .sourceNotExist => eng.driverErrorText none
  | .runFailed t => t

/-- What `main` receives from `m.Steps`. -/
def toStepsResult (eng : Engine) : Option EngineError → StepsResult
  | none => .nil
  | some .errNoChange => .errNoChange
  | some e => .other (e.text eng)

/-- The method `versionExists`: the up or the down file of the version is in
the source. -/
def versionExists (src : Source) (v : Nat) : Bool :=
  src.index.any (fun m => m.version == v && (m.up || m.down))

/-- The method `newMigration(version, targetVersion)` on the source's record of
that version: the up file is read when the target is not below the version,
the down file otherwise; a missing file gives an empty migration. -/
def newMigration (m : SourceMigration) (target : Option Nat) : Migration :=
  let isUp : Bool := match target with
    | some t => decide (m.version ≤ t)
    | none => false
  ⟨m.version, target, if isUp then m.up else m.down⟩

/-- The loop of `readUp`: `rest` are the versions `Next` still has to offer,
`count` the migrations sent so far. -/
def readUpLoop (limit : Int) : List SourceMigration → Nat → List Migration × Option EngineError
  | [], count =>
    if (count : Int) < limit ∨ limit = -1 then
      if limit = -1 ∧ count = 0 then ([], some .errNoChange)
      else if limit = -1 then ([], none)
      else if 0 < limit ∧ count = 0 then ([], some .errNotExist)
      else if (count : Int) < limit then ([], some (.errShortLimit (limit - count).toNat))
      else ([], some .sourceNotExist)
    else ([], none)
  | m :: rest, count =>
    if (count : Int) < limit ∨ limit = -1 then
      ((newMigration m (some m.version)) :: (readUpLoop limit rest (count + 1)).1,
        (readUpLoop limit rest (count + 1)).2)
    else ([], none)

/-- The versions `First` and `Next` walk through from `current` upwards: the
whole index from the nil version, the versions above `current` otherwise. -/
def versionsAbove (src : Source) (current : Option Nat) : List SourceMigration :=
  match current with
  | none => src.index
  | some v => src.index.filter (fun m => decide (v < m.version))

/-- The versions `Prev` walks through from `current` downwards, `current`
first. -/
def versionsDownFrom (src : Source) (current : Nat) : List SourceMigration :=
  (src.index.filter (fun m => decide (m.version ≤ current))).reverse

/-- The method `readUp(from, limit)`: the migrations sent to the channel and the
error sent last, if any. -/
def readUp (src : Source) (current : Option Nat) (limit : Int) :
    List Migration × Option EngineError :=
  match current with
  | some v =>
    if versionExists src v = false then ([], some (.noMigrationFound v))
    else if limit = 0 then ([], some .errNoChange)
    else readUpLoop limit (versionsAbove src (some v)) 0
  | none =>
    if limit = 0 then ([], some .errNoChange)
    else if src.index = [] ∧ ((0 : Int) < limit ∨ limit = -1) then ([], some .sourceNotExist)
    else readUpLoop limit (versionsAbove src none) 0

/-- The loop of `readDown`: the list holds the current version and the ones
`Prev` finds below it, `first` is what `First` returns. When there is no
previous version the down migration of the first version is sent with the nil
version as target, and a limit not reached is reported. -/
def readDownLoop (limit : Int) (first : Option SourceMigration) :
    List SourceMigration → Nat → List Migration × Option EngineError
  | m :: p :: rest, count =>
    if (count : Int) < limit ∨ limit = -1 then
      ((newMigration m (some p.version)) :: (readDownLoop limit first (p :: rest) (count + 1)).1,
        (readDownLoop limit first (p :: rest) (count + 1)).2)
    else ([], none)
  | _, count =>
    if (count : Int) < limit ∨ limit = -1 then
      if limit = -1 ∨ 0 < limit - count then
        match first with
        | none => ([], some .sourceNotExist)
        | some f =>
          ([newMigration f none],
            if ((count + 1 : Nat) : Int) < limit then
              some (.errShortLimit (limit - (count + 1 : Nat)).toNat)
            else none)
      else
        ([], if (count : Int) < limit then some (.errShortLimit (limit - count).toNat)
          else none)
    else ([], none)

/-- The method `readDown(from, limit)`. -/
def readDown (src : Source) (current : Option Nat) (limit : Int) :
    List Migration × Option EngineError :=
  match current with
  | some v =>
    if versionExists src v = false then ([], some (.noMigrationFound v))
    else if limit = 0 then ([], some .errNoChange)
    else readDownLoop limit src.index.head? (versionsDownFrom src v) 0
  | none =>
    if limit = 0 then ([], some .errNoChange)
    else if limit = -1 then ([], some .errNoChange)
    else if 0 < limit then ([], some .errNotExist)
    else ([], none)

/-- The method `runMigrations`: for each migration received, set the target
version with the dirty flag, run the body if there is one, and clear the flag;
an error of `Run` ends the run with the flag set; the error the reader sent
last is returned after the migrations before it. -/
def runMigrations (exec : Migration → Option String) :
    List Migration → Option EngineError → Database → Option EngineError × Database
  | [], e, db => (e, db)
  | m :: ms, e, db =>
    if m.hasBody then
      match exec m with
      | some err => (some (.runFailed err), ⟨m.targetVersion, true, db.applied⟩)
      | none => runMigrations exec ms e ⟨m.targetVersion, false, db.applied ++ [m]⟩
    else runMigrations exec ms e ⟨m.targetVersion, false, db.applied ++ [m]⟩

/-- The method `(*Migrate).Steps(n)`: the error returned and the database
afterwards. -/
def Steps (eng : Engine) (n : Int) (db : Database) : Option EngineError × Database :=
  if n = 0 then (some .errNoChange, db)
  else if db.dirty then (some (.errDirty (versionInt db.version)), db)
  else if 0 < n then
    runMigrations eng.exec (readUp eng.source db.version n).1
      (readUp eng.source db.version n).2 db
  else
    runMigrations eng.exec (readDown eng.source db.version (negInt n)).1
      (readDown eng.source db.version (negInt n)).2 db

/-- The collaborators of `main` when the engine runs against the database
`db`: `migrate.New` succeeds and `m.Steps(n)` returns what `Steps` returns. -/
def engineEnv (eng : Engine) (db : Database) : Env :=
  ⟨none, fun n => toStepsResult eng (Steps eng n db).1, fun _ => "scan error"⟩

/-- The database after a run of the tool that started on `db`: every call of
`m.Steps` the run made, applied in order. -/
def databaseAfter (eng : Engine) (db : Database) (r : Run) : Database :=
  r.trace.foldl
    (fun d ev => match ev with
      | Event.steps n => (Steps eng n d).2
      | _ => d) db

/-! ## The catalog listing handlers of `api/main.go` -/

/-- The record `TableInfo`. -/
structure TableInfo where
  Schema : String
  Table : String
  deriving DecidableEq, Repr

/-- The record `ColumnInfo`. -/
structure ColumnInfo where
  Schema : String
  Table : String
  ColumnName : String
  DataType : String
  IsNullable : String
  deriving DecidableEq, Repr

/-- The cursor `*sql.Rows` a successful `db.Query` returns: for every position
at which `rows.Next()` is true the result of `rows.Scan` there (the scanned
fields or the scan error), and the error `rows.Err()` reports once `Next` is
false. -/
structure Rows (ρ : Type) where
  items : List (Except String ρ)
  err : Option String

/-- What a handler does with the response writer: `http.Error` with a status
and a message, or the call `renderHTML(w, data, templateName)`. -/
inductive Response (α : Type) where
  | httpError (status : Nat) (message : String)
  | render (data : List α) (templateName : String)
  deriving DecidableEq, Repr

/-- The constant `http.StatusInternalServerError`. -/
def StatusInternalServerError : Nat := 500

/-- The loop `for rows.Next() { ... }` of both handlers: `mk` builds the record
from the scanned fields, `acc` is the slice so far; the first scan error ends
the loop. -/
def scanRows {ρ α : Type} (mk : ρ → α) : List (Except String ρ) → List α → Except String (List α)
  | [], acc => .ok acc
  | .error e :: _, _ => .error e
  | .ok fields :: rest, acc => scanRows mk rest (acc ++ [mk fields])

/-- The body shared by the two handlers after the query text is fixed. -/
def listHandler {ρ α : Type} (mk : ρ → α) (templateName : String)
    (query : Except String (Rows ρ)) : Response α :=
  match query with
  | .error e => .httpError StatusInternalServerError ("Error querying database: " ++ e)
  | .ok rows =>
    match scanRows mk rows.items [] with
    | .error e => .httpError StatusInternalServerError ("Error scanning row: " ++ e)
    | .ok data =>
      match rows.err with
      | some e =>
        .httpError StatusInternalServerError ("Error after iterating rows: " ++ e)
      | none => .render data templateName

/-- The handler `listTablesHandler`: `query` is the result of `db.Query`, a row
scans into `(schema, table)`. -/
def listTablesHandler (query : Except String (Rows (String × String))) : Response TableInfo :=
  listHandler (fun f => TableInfo.mk f.1 f.2) "tables" query

/-- The handler `listTableSchemasHandler`: a row scans into
`(schema, table, columnName, dataType, isNullable)`. -/
def listTableSchemasHandler
    (query : Except String (Rows (String × String × String × String × String))) :
    Response ColumnInfo :=
  listHandler (fun f => ColumnInfo.mk f.1 f.2.1 f.2.2.1 f.2.2.2.1 f.2.2.2.2) "table-schemas" query


/-! ## Notions used to state the properties -/

/-- The signed count `main` hands to `m.Steps` for an accepted command: `steps`
for `up`, `-steps` for `down`. -/
def stepsArg (command : String) (steps : Int) : Int :=
  if command = "up" then steps else negInt steps

/-- The value denoted by an optional sign followed by decimal digits. -/
def signedValue (sign : Option Char) (ds : List Char) : Int :=
  if sign = some '-' then -(decimalValue ds : Int) else (decimalValue ds : Int)

/-- The source `{v1, v2, v3}` of the scenarios, every version with both
files. -/
def source123 : Source :=
  ⟨[⟨1, true, true⟩, ⟨2, true, true⟩, ⟨3, true, true⟩], by decide⟩

/-- An engine on `source123` whose scripts all run without error. -/
def engine123 : Engine := ⟨source123, fun _ => none, fun _ => "file does not exist"⟩

/-- Whether an argument, after leading space, starts neither with a decimal
digit nor with a sign followed by a decimal digit: no decimal integer can be
read from its start. -/
def noIntegerPrefix (arg : String) : Bool :=
  match arg.toList.dropWhile isSpace with
  | [] => true
  | c :: rest =>
    if isSign c then
      match rest with
      | [] => true
      | d :: _ => !isDecimalDigit d
    else !isDecimalDigit c

/-- Whether the query, a row scan or the row iteration reports an error. -/
def reportsError {ρ : Type} (query : Except String (Rows ρ)) : Bool :=
  match query with
  | .error _ => true
  | .ok rows =>
    rows.items.any (fun r => match r with | .error _ => true | .ok _ => false) ||
      rows.err.isSome

/-- An engine whose instance is created and whose `Steps` always returns `r`. -/
def constEnv (r : StepsResult) : Env := ⟨none, fun _ => r, fun _ => "scan error"⟩

/-! ## Auxiliary facts -/

theorem toList_mk (l : List Char) : (String.mk l).toList = l := rfl

theorem digit_not_space {c : Char} (h : isDecimalDigit c = true) :
    c ≠ '\r' ∧ c ≠ '\n' ∧ isSpace c = false ∧ isSign c = false := by
  have hn : 48 ≤ c.toNat ∧ c.toNat ≤ 57 := by
    simpa [isDecimalDigit] using h
  refine ⟨?_, ?_, ?_, ?_⟩
  · intro hc; rw [hc] at hn; revert hn; decide
  · intro hc; rw [hc] at hn; revert hn; decide
  · simp only [isSpace, Bool.or_eq_false_iff, Bool.and_eq_false_iff, decide_eq_false_iff_not,
      beq_eq_false_iff_ne]
    omega
  · simp only [isSign, Bool.or_eq_false_iff, decide_eq_false_iff_not]
    constructor
    · intro hc; rw [hc] at hn; revert hn; decide
    · intro hc; rw [hc] at hn; revert hn; decide

theorem skipSpace_digit {c : Char} (cs : List Char) (h : isDecimalDigit c = true) :
    skipSpace (c :: cs) = .ok (c :: cs) := by
  obtain ⟨h1, h2, h3, _⟩ := digit_not_space h
  simp [skipSpace, h1, h2, h3]

theorem skipSpace_sign {c : Char} (cs : List Char) (h : c = '+' ∨ c = '-') :
    skipSpace (c :: cs) = .ok (c :: cs) := by
  have hp : isSpace '+' = false := by decide
  have hm : isSpace '-' = false := by decide
  rcases h with h | h <;> subst h <;> simp [skipSpace, hp, hm]

theorem takeWhile_digits {ds : List Char} (h : ∀ c ∈ ds, isDecimalDigit c = true) :
    ds.takeWhile isDecimalDigit = ds := by
  induction ds with
  | nil => rfl
  | cons d ds ih =>
    have hd : isDecimalDigit d = true := h d (List.mem_cons_self _ _)
    have ht : ∀ c ∈ ds, isDecimalDigit c = true := fun c hc => h c (List.mem_cons_of_mem _ hc)
    simp [List.takeWhile, hd, ih ht]

theorem scanNumber_digits (sign : Option Char) {ds : List Char} (hne : ds ≠ [])
    (h : ∀ c ∈ ds, isDecimalDigit c = true) : scanNumber sign ds = parseInt sign ds := by
  cases ds with
  | nil => exact absurd rfl hne
  | cons d ds =>
    have hd : isDecimalDigit d = true := h d (List.mem_cons_self _ _)
    simp only [scanNumber, hd, if_true]
    rw [takeWhile_digits h]

theorem parseInt_range {sign : Option Char} {ds : List Char} {n : Int}
    (h : parseInt sign ds = .ok n) : minInt ≤ n ∧ n ≤ maxInt := by
  unfold parseInt at h
  simp only [intBits, minInt, maxInt] at h ⊢
  split at h
  · split at h
    · cases h
    · injection h with h; omega
  · split at h
    · cases h
    · injection h with h; omega

theorem scanNumber_range {sign : Option Char} {cs : List Char} {n : Int}
    (h : scanNumber sign cs = .ok n) : minInt ≤ n ∧ n ≤ maxInt := by
  cases cs with
  | nil => simp [scanNumber] at h
  | cons c cs =>
    simp only [scanNumber] at h
    split at h
    · exact parseInt_range h
    · cases h

theorem sscanfInt_range {arg : String} {n : Int} (h : sscanfInt arg = .ok n) :
    minInt ≤ n ∧ n ≤ maxInt := by
  unfold sscanfInt at h
  split at h
  · cases h
  · rename_i rest _
    cases rest with
    | nil => simp [scanInt] at h
    | cons c cs =>
      simp only [scanInt] at h
      split at h <;> exact scanNumber_range h

theorem parseSteps_range {rest : List String} {n : Int} (h : parseSteps rest = .ok n) :
    minInt ≤ n ∧ n ≤ maxInt := by
  cases rest with
  | nil =>
    simp only [parseSteps] at h
    injection h with h
    subst h
    simp only [minInt, maxInt, intBits]
    omega
  | cons a _ => exact sscanfInt_range h

theorem negInt_eq_neg {n : Int} (h1 : minInt < n) (h2 : n ≤ maxInt) : negInt n = -n := by
  simp only [negInt, wrapInt, minInt, maxInt, intBits] at *
  omega

theorem negInt_minInt : negInt minInt = minInt := by decide

/-- An accepted invocation runs `m.Steps` once and then the error handling. -/
theorem main_accepted (env : Env) (prog command : String) (rest : List String) (n : Int)
    (hnew : env.newErr = none) (hcmd : command = "up" ∨ command = "down")
    (hsteps : parseSteps rest = .ok n) :
    main env (prog :: command :: rest) =
      handleResult [Event.migrateNew, Event.steps (stepsArg command n)] command
        (env.Steps (stepsArg command n)) := by
  rcases hcmd with h | h <;> subst h <;> simp [main, hnew, hsteps, stepsArg]

theorem handleResult_exitCode (pre : List Event) (command : String) (r : StepsResult) :
    (handleResult pre command r).exitCode = 0 ↔ (r = .nil ∨ r = .errNoChange) := by
  cases r <;> simp [handleResult, fatalRun]

theorem callsSteps_handleResult (pre : List Event) (command : String) (r : StepsResult) (n : Int)
    (h : Event.steps n ∈ pre) : callsSteps (handleResult pre command r) = true := by
  cases r <;> simp only [handleResult, fatalRun, callsSteps, List.any_eq_true] <;>
    exact ⟨Event.steps n, by simp [h], rfl⟩

theorem opensInstance_main (env : Env) (args : List String) :
    opensInstance (main env args) = true := by
  unfold main
  cases hnew : env.newErr with
  | some e => simp [fatalRun, opensInstance]
  | none =>
    match args with
    | [] => simp [fatalRun, opensInstance]
    | [_] => simp [fatalRun, opensInstance]
    | _ :: command :: rest =>
      simp only
      cases hp : parseSteps rest with
      | error e => simp [fatalRun, opensInstance]
      | ok n =>
        simp only
        split
        · cases env.Steps n <;> simp [handleResult, fatalRun, opensInstance]
        · split
          · cases env.Steps (negInt n) <;> simp [handleResult, fatalRun, opensInstance]
          · simp [fatalRun, opensInstance]

theorem fatalRun_facts (pre : List Event) (msg : String)
    (hpre : ∀ e ∈ pre, ∀ n, e ≠ Event.steps n) :
    (fatalRun pre msg).exitCode = 1 ∧ isFatal (fatalRun pre msg) = true ∧
      callsSteps (fatalRun pre msg) = false := by
  refine ⟨rfl, ?_, ?_⟩
  · simp [isFatal, fatalRun]
  · simp only [callsSteps, fatalRun, Bool.eq_false_iff, ne_eq, List.any_eq_true, not_exists,
      not_and]
    intro e he
    rcases List.mem_append.mp he with h | h
    · cases e <;> simp
      exact hpre _ h _ rfl
    · simp at h; subst h; simp

/-! ## The command-line tool -/

/-- C1, as stated, fails: with command `up` and step-count argument `0` the tool
has already opened the migrate instance and it calls `m.Steps(0)`, whatever the
engine answers; when the engine answers with the no-change sentinel the exit
status is 0. -/
theorem zero_steps_reaches_engine :
    opensInstance (main (constEnv .errNoChange) ["migrate", "up", "0"]) = true ∧
    callsSteps (main (constEnv .errNoChange) ["migrate", "up", "0"]) = true ∧
    (main (constEnv .errNoChange) ["migrate", "up", "0"]).exitCode = 0 ∧
    opensInstance (main (constEnv (.other "rejected")) ["migrate", "down", "0"]) = true ∧
    callsSteps (main (constEnv (.other "rejected")) ["migrate", "down", "0"]) = true := by
  decide

/-- C1, amended: for command `up` or `down` with a step-count argument that
reads as 0, the tool does not reject the run itself. It calls `migrate.New`
first and, when the instance is created, calls `m.Steps(0)` (for `down`,
`-0 = 0`); the exit status is 0 exactly when the engine returns `nil` or the
no-change sentinel. -/
theorem zero_steps_passed_to_engine (env : Env) (prog command arg : String)
    (more : List String) (hcmd : command = "up" ∨ command = "down")
    (harg : sscanfInt arg = .ok 0) :
    opensInstance (main env (prog :: command :: arg :: more)) = true ∧
    (env.newErr = none →
      main env (prog :: command :: arg :: more) =
        handleResult [Event.migrateNew, Event.steps 0] command (env.Steps 0) ∧
      callsSteps (main env (prog :: command :: arg :: more)) = true ∧
      ((main env (prog :: command :: arg :: more)).exitCode = 0 ↔
        (env.Steps 0 = .nil ∨ env.Steps 0 = .errNoChange))) := by
  refine ⟨opensInstance_main _ _, fun hnew => ?_⟩
  have hz : stepsArg command 0 = 0 := by
    rcases hcmd with h | h <;> subst h <;> decide
  have hm := main_accepted env prog command (arg :: more) 0 hnew hcmd harg
  rw [hz] at hm
  rw [hm]
  exact ⟨rfl, callsSteps_handleResult _ _ _ 0 (by simp), handleResult_exitCode _ _ _⟩

/-- The amended C1 at `migrate down 0` with an engine that returns `nil`. -/
theorem zero_steps_passed_to_engine_witness :
    opensInstance (main (constEnv .nil) ["migrate", "down", "0"]) = true ∧
    ((constEnv .nil).newErr = none →
      main (constEnv .nil) ["migrate", "down", "0"] =
        handleResult [Event.migrateNew, Event.steps 0] "down" ((constEnv .nil).Steps 0) ∧
      callsSteps (main (constEnv .nil) ["migrate", "down", "0"]) = true ∧
      ((main (constEnv .nil) ["migrate", "down", "0"]).exitCode = 0 ↔
        ((constEnv .nil).Steps 0 = .nil ∨ (constEnv .nil).Steps 0 = .errNoChange))) :=
  zero_steps_passed_to_engine (constEnv .nil) "migrate" "down" "0" [] (Or.inr rfl) (by decide)

/-- C2: once `m.Steps` has returned `r` (instance created, command `up` or
`down`, step count read), the tool exits with status 0 exactly when `r` is
`nil` or the no-change sentinel and with a non-zero status exactly when `r` is
any other error; on the no-change sentinel it prints the no-change line and
does not fail. -/
theorem exit_zero_iff_nil_or_no_change (env : Env) (prog command : String)
    (rest : List String) (n : Int) (r : StepsResult)
    (hnew : env.newErr = none) (hcmd : command = "up" ∨ command = "down")
    (hsteps : parseSteps rest = .ok n) (hr : env.Steps (stepsArg command n) = r) :
    ((main env (prog :: command :: rest)).exitCode = 0 ↔ (r = .nil ∨ r = .errNoChange)) ∧
    ((main env (prog :: command :: rest)).exitCode ≠ 0 ↔ ∃ text, r = .other text) ∧
    (r = .errNoChange →
      (main env (prog :: command :: rest)).exitCode = 0 ∧
      isFatal (main env (prog :: command :: rest)) = false ∧
      Event.stdout "No changes applied." ∈ (main env (prog :: command :: rest)).trace) := by
  rw [main_accepted env prog command rest n hnew hcmd hsteps, hr]
  refine ⟨handleResult_exitCode _ _ _, ?_, ?_⟩
  · cases r <;> simp [handleResult, fatalRun]
  · intro h
    subst h
    simp [handleResult, isFatal]

/-- C2 at `migrate up 2` with an engine that returns the no-change sentinel. -/
theorem exit_zero_iff_nil_or_no_change_witness :
    ((main (constEnv .errNoChange) ["migrate", "up", "2"]).exitCode = 0 ↔
      (StepsResult.errNoChange = .nil ∨ StepsResult.errNoChange = .errNoChange)) ∧
    ((main (constEnv .errNoChange) ["migrate", "up", "2"]).exitCode ≠ 0 ↔
      ∃ text, StepsResult.errNoChange = .other text) ∧
    (StepsResult.errNoChange = .errNoChange →
      (main (constEnv .errNoChange) ["migrate", "up", "2"]).exitCode = 0 ∧
      isFatal (main (constEnv .errNoChange) ["migrate", "up", "2"]) = false ∧
      Event.stdout "No changes applied." ∈
        (main (constEnv .errNoChange) ["migrate", "up", "2"]).trace) :=
  exit_zero_iff_nil_or_no_change (constEnv .errNoChange) "migrate" "up" ["2"] 2 .errNoChange
    rfl (Or.inl rfl) (by decide) rfl

theorem sscanfInt_decimal (sign : Option Char) (ds : List Char)
    (hsign : sign = none ∨ sign = some '+' ∨ sign = some '-') (hne : ds ≠ [])
    (hdig : ∀ c ∈ ds, isDecimalDigit c = true)
    (hlo : minInt ≤ signedValue sign ds) (hhi : signedValue sign ds ≤ maxInt) :
    sscanfInt (String.mk (sign.toList ++ ds)) = .ok (signedValue sign ds) := by
  have hparse : parseInt sign ds = .ok (signedValue sign ds) := by
    unfold parseInt signedValue
    simp only [signedValue, minInt, maxInt, intBits] at hlo hhi ⊢
    split
    · rename_i hs
      simp only [hs, if_true] at hlo hhi
      rw [if_neg (by omega)]
    · rename_i hs
      simp only [hs, if_false] at hlo hhi
      rw [if_neg (by omega)]
  cases ds with
  | nil => exact absurd rfl hne
  | cons d ds =>
    have hd : isDecimalDigit d = true := hdig d (List.mem_cons_self _ _)
    rcases hsign with h | h | h
    · subst h
      simp only [sscanfInt, toList_mk, Option.toList, List.nil_append, skipSpace_digit ds hd,
        scanInt, (digit_not_space hd).2.2.2]
      rw [← hparse]
      exact scanNumber_digits none hne hdig
    · subst h
      simp only [sscanfInt, toList_mk, Option.toList, List.singleton_append,
        skipSpace_sign (d :: ds) (Or.inl rfl), scanInt]
      rw [← hparse]
      have hs : isSign '+' = true := by decide
      simp only [hs, if_true]
      exact scanNumber_digits _ hne hdig
    · subst h
      simp only [sscanfInt, toList_mk, Option.toList, List.singleton_append,
        skipSpace_sign (d :: ds) (Or.inr rfl), scanInt]
      rw [← hparse]
      have hs : isSign '-' = true := by decide
      simp only [hs, if_true]
      exact scanNumber_digits _ hne hdig

/-- C3, as stated, fails: the argument `9223372036854775808` is a decimal
integer (nineteen decimal digits, value `2^63`), and with it the tool fails
fatally without calling `m.Steps`: no step count is used. -/
theorem huge_step_count_rejected :
    (∀ c ∈ "9223372036854775808".toList, isDecimalDigit c = true) ∧
    signedValue none "9223372036854775808".toList = 2 ^ 63 ∧
    parseSteps ["9223372036854775808"] = .error (.outOfRange "9223372036854775808") ∧
    callsSteps (main (constEnv .nil) ["migrate", "up", "9223372036854775808"]) = false ∧
    isFatal (main (constEnv .nil) ["migrate", "up", "9223372036854775808"]) = true ∧
    (main (constEnv .nil) ["migrate", "up", "9223372036854775808"]).exitCode = 1 := by
  decide

/-- C3, amended: with a command and no step-count argument the step count used
is 1; with a step-count argument that is a decimal integer (an optional sign
followed by decimal digits) whose value `n` lies in the range of Go `int`, the
step count used is `n`. In both cases an accepted command hands exactly that
count (negated for `down`) to `m.Steps`. -/
theorem step_count_default_and_scanned (env : Env) (prog command : String)
    (sign : Option Char) (ds : List Char) (more : List String)
    (hnew : env.newErr = none) (hcmd : command = "up" ∨ command = "down")
    (hsign : sign = none ∨ sign = some '+' ∨ sign = some '-') (hne : ds ≠ [])
    (hdig : ∀ c ∈ ds, isDecimalDigit c = true)
    (hlo : minInt ≤ signedValue sign ds) (hhi : signedValue sign ds ≤ maxInt) :
    parseSteps [] = .ok 1 ∧
    main env [prog, command] =
      handleResult [Event.migrateNew, Event.steps (stepsArg command 1)] command
        (env.Steps (stepsArg command 1)) ∧
    parseSteps (String.mk (sign.toList ++ ds) :: more) = .ok (signedValue sign ds) ∧
    main env (prog :: command :: String.mk (sign.toList ++ ds) :: more) =
      handleResult [Event.migrateNew, Event.steps (stepsArg command (signedValue sign ds))]
        command (env.Steps (stepsArg command (signedValue sign ds))) := by
  have h := sscanfInt_decimal sign ds hsign hne hdig hlo hhi
  exact ⟨rfl, main_accepted env prog command [] 1 hnew hcmd rfl, h,
    main_accepted env prog command _ _ hnew hcmd h⟩

/-- The amended C3 at `migrate up` and `migrate up -42`. -/
theorem step_count_default_and_scanned_witness :
    parseSteps [] = .ok 1 ∧
    main (constEnv .nil) ["migrate", "up"] =
      handleResult [Event.migrateNew, Event.steps (stepsArg "up" 1)] "up"
        ((constEnv .nil).Steps (stepsArg "up" 1)) ∧
    parseSteps (String.mk ((some '-').toList ++ ['4', '2']) :: []) =
      .ok (signedValue (some '-') ['4', '2']) ∧
    main (constEnv .nil) ("migrate" :: "up" :: String.mk ((some '-').toList ++ ['4', '2']) :: []) =
      handleResult
        [Event.migrateNew, Event.steps (stepsArg "up" (signedValue (some '-') ['4', '2']))]
        "up" ((constEnv .nil).Steps (stepsArg "up" (signedValue (some '-') ['4', '2']))) :=
  step_count_default_and_scanned (constEnv .nil) "migrate" "up" (some '-') ['4', '2'] [] rfl
    (Or.inl rfl) (Or.inr (Or.inr rfl)) (by decide) (by decide) (by decide) (by decide)

/-- C6, as stated, fails: `up` with the argument `-3` asks the engine for `-3`
(a revert), `down` with `-3` asks for `3` (an advance), and `up` with `0` asks
for `0`. -/
theorem sign_of_count_not_fixed_by_command :
    main (constEnv .nil) ["migrate", "up", "-3"] =
      handleResult [Event.migrateNew, Event.steps (-3)] "up" .nil ∧
    main (constEnv .nil) ["migrate", "down", "-3"] =
      handleResult [Event.migrateNew, Event.steps 3] "down" .nil ∧
    main (constEnv .nil) ["migrate", "up", "0"] =
      handleResult [Event.migrateNew, Event.steps 0] "up" .nil := by
  decide

/-- C6, amended: for every accepted invocation, with `n` the step count read
(1 when no argument is given), `up` asks the engine for exactly `n` and `down`
for exactly `-n` in Go `int` arithmetic. The count asked for is strictly
positive for `up` and strictly negative for `down` whenever `n > 0`. The tool
does not check the sign of `n`: with `n = 0` both commands ask for 0; with a
negative `n` above the smallest `int`, `up` asks for the negative `n` and
`down` for the positive `-n`; with the smallest `int` both commands ask for
that same negative count. -/
theorem direction_follows_command_for_positive_count (env : Env) (prog : String)
    (rest : List String) (n : Int) (hnew : env.newErr = none)
    (hsteps : parseSteps rest = .ok n) :
    main env (prog :: "up" :: rest) =
      handleResult [Event.migrateNew, Event.steps n] "up" (env.Steps n) ∧
    main env (prog :: "down" :: rest) =
      handleResult [Event.migrateNew, Event.steps (negInt n)] "down" (env.Steps (negInt n)) ∧
    (0 < n → negInt n = -n ∧ negInt n < 0) ∧
    (n = 0 → negInt n = 0) ∧
    (n < 0 → minInt < n → negInt n = -n ∧ 0 < negInt n) ∧
    (n = minInt → negInt n = n ∧ negInt n < 0) ∧
    (negInt n < 0 ↔ (0 < n ∨ n = minInt)) ∧
    (0 < negInt n ↔ (n < 0 ∧ minInt < n)) := by
  obtain ⟨hlo, hhi⟩ := parseSteps_range hsteps
  refine ⟨main_accepted env prog "up" rest n hnew (Or.inl rfl) hsteps,
    main_accepted env prog "down" rest n hnew (Or.inr rfl) hsteps, ?_, ?_, ?_, ?_, ?_, ?_⟩
  · intro hpos
    have hmin : minInt < n := lt_trans (by decide) hpos
    rw [negInt_eq_neg hmin hhi]
    exact ⟨rfl, by omega⟩
  · intro h0
    subst h0
    decide
  · intro hneg hmin
    rw [negInt_eq_neg hmin hhi]
    exact ⟨rfl, by omega⟩
  · intro hm
    subst hm
    decide
  · simp only [negInt, wrapInt, minInt, maxInt, intBits] at *
    omega
  · simp only [negInt, wrapInt, minInt, maxInt, intBits] at *
    omega

/-- The amended C6 at the step-count argument `-3`. -/
theorem direction_follows_command_for_positive_count_witness :
    main (constEnv .nil) ("migrate" :: "up" :: ["-3"]) =
      handleResult [Event.migrateNew, Event.steps (-3)] "up" ((constEnv .nil).Steps (-3)) ∧
    main (constEnv .nil) ("migrate" :: "down" :: ["-3"]) =
      handleResult [Event.migrateNew, Event.steps (negInt (-3))] "down"
        ((constEnv .nil).Steps (negInt (-3))) ∧
    ((0 : Int) < -3 → negInt (-3) = -(-3) ∧ negInt (-3) < 0) ∧
    ((-3 : Int) = 0 → negInt (-3) = 0) ∧
    ((-3 : Int) < 0 → minInt < -3 → negInt (-3) = -(-3) ∧ 0 < negInt (-3)) ∧
    ((-3 : Int) = minInt → negInt (-3) = -3 ∧ negInt (-3) < 0) ∧
    (negInt (-3) < 0 ↔ ((0 : Int) < -3 ∨ (-3 : Int) = minInt)) ∧
    (0 < negInt (-3) ↔ ((-3 : Int) < 0 ∧ minInt < -3)) :=
  direction_follows_command_for_positive_count (constEnv .nil) "migrate" ["-3"] (-3) rfl
    (by decide)

/-- The empty argument does not scan: the input ends before any digit. -/
theorem sscanfInt_empty : sscanfInt "" = .error .eof := by decide

/-- An argument whose first rune is neither space, sign nor decimal digit does
not scan: `Sscanf` reports "expected integer". -/
theorem sscanfInt_no_digit (c : Char) (cs : List Char) (hspace : isSpace c = false)
    (hsign : isSign c = false) (hdigit : isDecimalDigit c = false) :
    sscanfInt (String.mk (c :: cs)) = .error .expectedInteger := by
  have hnl : c ≠ '\n' := by
    intro h; rw [h] at hspace; revert hspace; decide
  have hcr : c ≠ '\r' := by
    intro h; rw [h] at hspace; revert hspace; decide
  simp [sscanfInt, toList_mk, skipSpace, hnl, hcr, hspace, scanInt, hsign, scanNumber, hdigit]

/-- C7, as stated, fails: from `3abc` the scanner reads the step count 3 and
leaves the rest unread, so the tool calls `m.Steps(3)` and can end with exit
status 0; and with `abc` the call of `migrate.New` has happened before the
fatal exit. -/
theorem trailing_text_accepted :
    sscanfInt "3abc" = .ok 3 ∧
    main (constEnv .nil) ["migrate", "up", "3abc"] =
      ⟨[Event.migrateNew, Event.steps 3, Event.stdout "Migration up successful!",
        Event.close], 0⟩ ∧
    callsSteps (main (constEnv .nil) ["migrate", "up", "3abc"]) = true ∧
    isFatal (main (constEnv .nil) ["migrate", "up", "3abc"]) = false ∧
    opensInstance (main (constEnv .nil) ["migrate", "up", "abc"]) = true := by
  decide

/-- Once the instance is created, an argument `Sscanf` cannot read ends the
run in the invalid-step-count fatal, after `migrate.New` and before any call
of `m.Steps`. -/
theorem scan_error_is_fatal (env : Env) (prog command arg : String)
    (more : List String) (e : ScanError) (hnew : env.newErr = none)
    (harg : sscanfInt arg = .error e) :
    main env (prog :: command :: arg :: more) =
      fatalRun [Event.migrateNew] ("Invalid number of steps: " ++ env.scanErrorText e) ∧
    (main env (prog :: command :: arg :: more)).exitCode = 1 ∧
    isFatal (main env (prog :: command :: arg :: more)) = true ∧
    callsSteps (main env (prog :: command :: arg :: more)) = false ∧
    opensInstance (main env (prog :: command :: arg :: more)) = true := by
  have hm : main env (prog :: command :: arg :: more) =
      fatalRun [Event.migrateNew] ("Invalid number of steps: " ++ env.scanErrorText e) := by
    simp [main, hnew, parseSteps, harg]
  rw [hm]
  have hf := fatalRun_facts [Event.migrateNew]
    ("Invalid number of steps: " ++ env.scanErrorText e) (by simp)
  exact ⟨rfl, hf.1, hf.2.1, hf.2.2, by simp [opensInstance, fatalRun]⟩

theorem skipSpace_cases (l : List Char) :
    skipSpace l = .error .unexpectedNewline ∨ skipSpace l = .ok (l.dropWhile isSpace) := by
  induction l with
  | nil => right; rfl
  | cons c cs ih =>
    unfold skipSpace
    by_cases h1 : c = '\r' ∧ cs.head? = some '\n'
    · have hs : isSpace c = true := by rw [h1.1]; decide
      rw [if_pos h1]
      rcases ih with h | h
      · left; exact h
      · right; rw [h, List.dropWhile_cons_of_pos hs]
    · rw [if_neg h1]
      by_cases h2 : c = '\n'
      · left; rw [if_pos h2]
      · rw [if_neg h2]
        by_cases h3 : isSpace c = true
        · rw [if_pos h3]
          rcases ih with h | h
          · left; exact h
          · right; rw [h, List.dropWhile_cons_of_pos h3]
        · rw [if_neg h3]
          right
          rw [List.dropWhile_cons_of_neg h3]

theorem sscanfInt_noIntegerPrefix (arg : String) (h : noIntegerPrefix arg = true) :
    ∃ e, sscanfInt arg = .error e := by
  unfold sscanfInt
  unfold noIntegerPrefix at h
  rcases skipSpace_cases arg.toList with hs | hs
  · rw [hs]; exact ⟨_, rfl⟩
  · rw [hs]
    cases hd : arg.toList.dropWhile isSpace with
    | nil => exact ⟨_, rfl⟩
    | cons c rest =>
      rw [hd] at h
      simp only at h ⊢
      by_cases hsign : isSign c = true
      · rw [if_pos hsign] at h
        simp only [scanInt, hsign, if_true]
        cases rest with
        | nil => exact ⟨_, rfl⟩
        | cons d rest =>
          simp only [Bool.not_eq_true_eq_eq_false] at h
          simp only [scanNumber, h]
          exact ⟨_, rfl⟩
      · rw [if_neg hsign] at h
        simp only [Bool.not_eq_true_eq_eq_false] at h
        simp only [Bool.not_eq_true] at hsign
        simp only [scanInt, hsign, scanNumber, h]
        exact ⟨_, rfl⟩

/-- C7, amended: for every step-count argument that, after leading space,
starts neither with a decimal digit nor with a sign followed by a decimal
digit (such as `abc` or the empty string), the tool, when `migrate.New` has
created the instance, terminates fatally with the invalid-step-count message
and exit status 1 and never calls `m.Steps`; the call of `migrate.New`, which
opens the database, has happened before the argument is read. What the tool
does with an argument that starts with a decimal integer and goes on with
other text is not stated here. -/
theorem no_integer_prefix_is_fatal (env : Env) (prog command arg : String)
    (more : List String) (hnew : env.newErr = none) (harg : noIntegerPrefix arg = true) :
    (∃ e, main env (prog :: command :: arg :: more) =
      fatalRun [Event.migrateNew] ("Invalid number of steps: " ++ env.scanErrorText e)) ∧
    (main env (prog :: command :: arg :: more)).exitCode = 1 ∧
    isFatal (main env (prog :: command :: arg :: more)) = true ∧
    callsSteps (main env (prog :: command :: arg :: more)) = false ∧
    opensInstance (main env (prog :: command :: arg :: more)) = true := by
  obtain ⟨e, he⟩ := sscanfInt_noIntegerPrefix arg harg
  have h := scan_error_is_fatal env prog command arg more e hnew he
  exact ⟨⟨e, h.1⟩, h.2⟩

/-- The amended C7 at `migrate up abc`. -/
theorem no_integer_prefix_is_fatal_witness :
    (∃ e, main (constEnv .nil) ("migrate" :: "up" :: "abc" :: []) =
      fatalRun [Event.migrateNew]
        ("Invalid number of steps: " ++ (constEnv .nil).scanErrorText e)) ∧
    (main (constEnv .nil) ("migrate" :: "up" :: "abc" :: [])).exitCode = 1 ∧
    isFatal (main (constEnv .nil) ("migrate" :: "up" :: "abc" :: [])) = true ∧
    callsSteps (main (constEnv .nil) ("migrate" :: "up" :: "abc" :: [])) = false ∧
    opensInstance (main (constEnv .nil) ("migrate" :: "up" :: "abc" :: [])) = true :=
  no_integer_prefix_is_fatal (constEnv .nil) "migrate" "up" "abc" [] rfl (by decide)

/-- C8: for every command token other than exactly `up` or `down`, a missing
command included, the tool terminates fatally with exit status 1 and never
calls `m.Steps`. -/
theorem unknown_command_is_fatal (env : Env) (args : List String)
    (hup : args[1]? ≠ some "up") (hdown : args[1]? ≠ some "down") :
    (main env args).exitCode = 1 ∧ isFatal (main env args) = true ∧
      callsSteps (main env args) = false := by
  have hpre : ∀ e ∈ [Event.migrateNew], ∀ n, e ≠ Event.steps n := by simp
  unfold main
  cases env.newErr with
  | some e => exact fatalRun_facts _ _ hpre
  | none =>
    match args, hup, hdown with
    | [], _, _ => exact fatalRun_facts _ _ hpre
    | [_], _, _ => exact fatalRun_facts _ _ hpre
    | _ :: command :: rest, hup, hdown =>
      have h1 : command ≠ "up" := by simpa using hup
      have h2 : command ≠ "down" := by simpa using hdown
      simp only
      cases parseSteps rest with
      | error e => exact fatalRun_facts _ _ hpre
      | ok n =>
        simp only [h1, h2, if_false]
        exact fatalRun_facts _ _ hpre

/-- C8 at `migrate upp 1`. -/
theorem unknown_command_is_fatal_witness :
    (main (constEnv .nil) ["migrate", "upp", "1"]).exitCode = 1 ∧
      isFatal (main (constEnv .nil) ["migrate", "upp", "1"]) = true ∧
      callsSteps (main (constEnv .nil) ["migrate", "upp", "1"]) = false :=
  unknown_command_is_fatal (constEnv .nil) ["migrate", "upp", "1"] (by decide) (by decide)

/-- C9: for every error `m.Steps` returns other than the no-change sentinel,
the run ends in a fatal message that is `Migration failed: ` followed by the
error text unchanged, with exit status 1; and every non-nil result produces
either the no-change line or a fatal message. -/
theorem engine_error_reported_verbatim (env : Env) (prog command : String)
    (rest : List String) (n : Int) (hnew : env.newErr = none)
    (hcmd : command = "up" ∨ command = "down") (hsteps : parseSteps rest = .ok n) :
    (∀ text, env.Steps (stepsArg command n) = .other text →
      (main env (prog :: command :: rest)).trace.getLast? =
        some (Event.fatal ("Migration failed: " ++ text)) ∧
      text.data <:+ ("Migration failed: " ++ text).data ∧
      (main env (prog :: command :: rest)).exitCode = 1) ∧
    (env.Steps (stepsArg command n) ≠ .nil →
      Event.stdout "No changes applied." ∈ (main env (prog :: command :: rest)).trace ∨
      isFatal (main env (prog :: command :: rest)) = true) := by
  rw [main_accepted env prog command rest n hnew hcmd hsteps]
  constructor
  · intro text ht
    rw [ht]
    refine ⟨by simp [handleResult, fatalRun], ?_, rfl⟩
    rw [String.data_append]
    exact List.suffix_append _ _
  · intro hne
    cases hr : env.Steps (stepsArg command n) with
    | nil => exact absurd hr hne
    | errNoChange => left; simp [handleResult]
    | other text => right; simp [handleResult, fatalRun, isFatal]

/-- C9 at `migrate down` with an engine that returns the error `boom`. -/
theorem engine_error_reported_verbatim_witness :
    (∀ text, (constEnv (.other "boom")).Steps (stepsArg "down" 1) = .other text →
      (main (constEnv (.other "boom")) ("migrate" :: "down" :: [])).trace.getLast? =
        some (Event.fatal ("Migration failed: " ++ text)) ∧
      text.data <:+ ("Migration failed: " ++ text).data ∧
      (main (constEnv (.other "boom")) ("migrate" :: "down" :: [])).exitCode = 1) ∧
    ((constEnv (.other "boom")).Steps (stepsArg "down" 1) ≠ .nil →
      Event.stdout "No changes applied." ∈
          (main (constEnv (.other "boom")) ("migrate" :: "down" :: [])).trace ∨
      isFatal (main (constEnv (.other "boom")) ("migrate" :: "down" :: [])) = true) :=
  engine_error_reported_verbatim (constEnv (.other "boom")) "migrate" "down" [] 1 rfl
    (Or.inr rfl) rfl

/-! ## The engine behind the tool -/

theorem stepsArg_ne_zero {command : String} {n : Int} (hlo : minInt ≤ n) (hhi : n ≤ maxInt)
    (hn : n ≠ 0) : stepsArg command n ≠ 0 := by
  unfold stepsArg
  split
  · exact hn
  · simp only [negInt, wrapInt, minInt, maxInt, intBits] at *
    omega

theorem databaseAfter_handleResult (eng : Engine) (db : Database) (k : Int)
    (command : String) (r : StepsResult) :
    databaseAfter eng db (handleResult [Event.migrateNew, Event.steps k] command r) =
      (Steps eng k db).2 := by
  cases r <;> simp [databaseAfter, handleResult, fatalRun]

theorem Steps_dirty (eng : Engine) (n : Int) (db : Database) (hdirty : db.dirty = true)
    (hn : n ≠ 0) : Steps eng n db = (some (.errDirty (versionInt db.version)), db) := by
  simp [Steps, hn, hdirty]

/-- C4, as stated, fails: on a dirty store the run `up 0` does not fail. The
engine returns the no-change sentinel for a count of 0, and the tool prints
the no-change line and exits with status 0. -/
theorem dirty_store_zero_steps_reports_no_change :
    main (engineEnv engine123 ⟨some 2, true, []⟩) ["migrate", "up", "0"] =
      ⟨[Event.migrateNew, Event.steps 0, Event.stdout "No changes applied.", Event.close], 0⟩ ∧
    isFatal (main (engineEnv engine123 ⟨some 2, true, []⟩) ["migrate", "up", "0"]) = false := by
  decide

/-- C4, amended: if the version store reports `dirty = true`, then every run
of the tool with command `up` or `down` and a step count other than 0 ends in
the fatal message carrying the engine's dirty-state error, with exit status 1;
and for every step count, 0 included, the run applies no migration and leaves
the stored version and the dirty flag as they were. With a step count of 0 the
tool prints the no-change line and exits with status 0. -/
theorem dirty_store_refuses_run (eng : Engine) (db : Database)
    (prog command : String) (rest : List String) (n : Int)
    (hdirty : db.dirty = true) (hcmd : command = "up" ∨ command = "down")
    (hsteps : parseSteps rest = .ok n) :
    databaseAfter eng db (main (engineEnv eng db) (prog :: command :: rest)) = db ∧
    (n ≠ 0 →
      main (engineEnv eng db) (prog :: command :: rest) =
        fatalRun [Event.migrateNew, Event.steps (stepsArg command n)]
          ("Migration failed: " ++ (EngineError.errDirty (versionInt db.version)).text eng) ∧
      (main (engineEnv eng db) (prog :: command :: rest)).exitCode = 1) ∧
    (n = 0 →
      main (engineEnv eng db) (prog :: command :: rest) =
        ⟨[Event.migrateNew, Event.steps 0, Event.stdout "No changes applied.", Event.close],
          0⟩) := by
  obtain ⟨hlo, hhi⟩ := parseSteps_range hsteps
  have hm := main_accepted (engineEnv eng db) prog command rest n rfl hcmd hsteps
  refine ⟨?_, ?_, ?_⟩
  · rw [hm, databaseAfter_handleResult]
    by_cases h0 : stepsArg command n = 0
    · simp [Steps, h0]
    · rw [Steps_dirty eng _ db hdirty h0]
  · intro hn
    have hne := @stepsArg_ne_zero command n hlo hhi hn
    have hs : (engineEnv eng db).Steps (stepsArg command n) =
        .other ((EngineError.errDirty (versionInt db.version)).text eng) := by
      simp only [engineEnv, Steps_dirty eng _ db hdirty hne, toStepsResult]
    rw [hs] at hm
    rw [hm]
    exact ⟨rfl, rfl⟩
  · intro hn
    subst hn
    have hz : stepsArg command 0 = 0 := by
      rcases hcmd with h | h <;> subst h <;> decide
    rw [hz] at hm
    have hs : (engineEnv eng db).Steps 0 = .errNoChange := by
      simp [engineEnv, Steps, toStepsResult]
    rw [hs] at hm
    rw [hm]
    rfl

/-- The amended C4 at `migrate down` on a dirty store at version 2. -/
theorem dirty_store_refuses_run_witness :
    databaseAfter engine123 ⟨some 2, true, []⟩
      (main (engineEnv engine123 ⟨some 2, true, []⟩) ("migrate" :: "down" :: [])) =
        ⟨some 2, true, []⟩ ∧
    ((1 : Int) ≠ 0 →
      main (engineEnv engine123 ⟨some 2, true, []⟩) ("migrate" :: "down" :: []) =
        fatalRun [Event.migrateNew, Event.steps (stepsArg "down" 1)]
          ("Migration failed: " ++
            (EngineError.errDirty (versionInt (some 2))).text engine123) ∧
      (main (engineEnv engine123 ⟨some 2, true, []⟩) ("migrate" :: "down" :: [])).exitCode
        = 1) ∧
    ((1 : Int) = 0 →
      main (engineEnv engine123 ⟨some 2, true, []⟩) ("migrate" :: "down" :: []) =
        ⟨[Event.migrateNew, Event.steps 0, Event.stdout "No changes applied.", Event.close],
          0⟩) :=
  dirty_store_refuses_run engine123 ⟨some 2, true, []⟩ "migrate" "down" [] 1 rfl
    (Or.inr rfl) rfl

theorem readUpLoop_short (limit : Int) (hlimit : 0 < limit) (rest : List SourceMigration)
    (count : Nat) (hlt : ((count + rest.length : Nat) : Int) < limit)
    (hpos : 0 < count + rest.length) :
    readUpLoop limit rest count =
      (rest.map (fun m => newMigration m (some m.version)),
        some (.errShortLimit (limit - ((count + rest.length : Nat) : Int)).toNat)) := by
  induction rest generalizing count with
  | nil =>
    simp only [List.length_nil, Nat.add_zero] at hlt hpos
    have h1 : (count : Int) < limit ∨ limit = -1 := Or.inl hlt
    have h2 : ¬ (limit = -1 ∧ count = 0) := by omega
    have h3 : ¬ limit = -1 := by omega
    have h4 : ¬ (0 < limit ∧ count = 0) := by omega
    simp only [readUpLoop, if_pos h1, if_neg h2, if_neg h3, if_neg h4, if_pos hlt,
      List.map_nil, List.length_nil, Nat.add_zero]
  | cons m rest ih =>
    simp only [List.length_cons] at hlt hpos
    have h1 : (count : Int) < limit ∨ limit = -1 := by
      left
      have : (count : Int) ≤ ((count + (rest.length + 1) : Nat) : Int) := by
        exact_mod_cast Nat.le_add_right _ _
      omega
    have hlt2 : (((count + 1) + rest.length : Nat) : Int) < limit := by
      have : count + 1 + rest.length = count + (rest.length + 1) := by omega
      rw [this]; exact hlt
    have ih2 := ih (count + 1) hlt2 (by omega)
    have hlen : count + 1 + rest.length = count + (rest.length + 1) := by omega
    simp only [readUpLoop, if_pos h1, ih2, List.map_cons, List.length_cons, hlen]

theorem runMigrations_all_ok (exec : Migration → Option String) (items : List Migration)
    (e : Option EngineError) (db : Database) (hexec : ∀ m ∈ items, exec m = none) :
    runMigrations exec items e db =
      (e, ⟨(items.map (fun m => m.targetVersion)).getLastD db.version,
        db.dirty && items.isEmpty, db.applied ++ items⟩) := by
  induction items generalizing db with
  | nil => simp [runMigrations]
  | cons m ms ih =>
    have hm : exec m = none := hexec m (List.mem_cons_self _ _)
    have hms : ∀ t ∈ ms, exec t = none := fun t h => hexec t (List.mem_cons_of_mem _ h)
    have hstep : runMigrations exec (m :: ms) e db =
        runMigrations exec ms e ⟨m.targetVersion, false, db.applied ++ [m]⟩ := by
      simp only [runMigrations, hm]
      split <;> rfl
    rw [hstep, ih _ hms]
    simp only [List.map_cons, List.getLastD_cons, Bool.false_and, List.isEmpty_cons,
      Bool.and_false, List.append_assoc, List.singleton_append]

theorem getLastD_targets (l : List SourceMigration) (d : Option Nat) (hne : l ≠ []) :
    ((l.map (fun m => newMigration m (some m.version))).map
      (fun m => m.targetVersion)).getLastD d = l.getLast?.map (fun m => m.version) := by
  induction l generalizing d with
  | nil => exact absurd rfl hne
  | cons a l ih =>
    cases l with
    | nil => simp [newMigration]
    | cons b l =>
      have h := ih (some a.version) (by simp)
      simp only [List.map_cons, List.getLastD_cons, List.getLast?_cons_cons] at h ⊢
      exact h

theorem versionsAbove_ascending (src : Source) (current : Option Nat) :
    ((versionsAbove src current).map (fun m => m.version)).Pairwise (fun a b => a < b) := by
  rw [List.pairwise_map]
  cases current with
  | none => exact src.increasing
  | some v => exact src.increasing.sublist (List.filter_sublist _)

theorem readUp_short (src : Source) (current : Option Nat) (N : Int)
    (hver : ∀ v, current = some v → versionExists src v = true)
    (hk : 1 ≤ (versionsAbove src current).length)
    (hN : ((versionsAbove src current).length : Int) < N) :
    readUp src current N =
      ((versionsAbove src current).map (fun m => newMigration m (some m.version)),
        some (.errShortLimit (N - ((versionsAbove src current).length : Int)).toNat)) := by
  have hpos : 0 < N := by omega
  have h0 : ¬ N = 0 := by omega
  have hloop := readUpLoop_short N hpos (versionsAbove src current) 0
    (by simpa using hN) (by omega)
  simp only [Nat.zero_add] at hloop
  cases current with
  | some v =>
    have hv := hver v rfl
    simp only [readUp, hv, if_neg h0]
    simpa using hloop
  | none =>
    have hne : ¬ (src.index = [] ∧ ((0 : Int) < N ∨ N = -1)) := by
      intro h
      simp [versionsAbove, h.1] at hk
    simp only [readUp, if_neg h0, if_neg hne]
    exact hloop

/-- C5, as stated, fails: with the source `{v1, v2, v3}`, a clean store at
the nil version and scripts that all run, `up 100` applies the three
migrations in ascending order, but the engine then returns its short-limit
error and the tool ends in a fatal message with exit status 1. -/
theorem capped_advance_reported_as_failure :
    (versionsAbove source123 none).length = 3 ∧
    main (engineEnv engine123 ⟨none, false, []⟩) ["migrate", "up", "100"] =
      fatalRun [Event.migrateNew, Event.steps 100] "Migration failed: limit 97 short" ∧
    (main (engineEnv engine123 ⟨none, false, []⟩) ["migrate", "up", "100"]).exitCode = 1 ∧
    databaseAfter engine123 ⟨none, false, []⟩
      (main (engineEnv engine123 ⟨none, false, []⟩) ["migrate", "up", "100"]) =
        ⟨some 3, false, [⟨1, some 1, true⟩, ⟨2, some 2, true⟩, ⟨3, some 3, true⟩]⟩ := by
  decide

/-- C5, amended: for every catalog and current version (the nil version or a
version of the catalog, the store not dirty), when `up` is requested with a
step count `N` larger than the number `k >= 1` of versions above the current
one and each of their scripts runs without error, the run of the tool applies
exactly those `k` migrations, in ascending order of version, and leaves the
store at the highest of them with the dirty flag clear; the engine then
returns its short-limit error for the `N - k` steps not taken, and the tool
reports the run as a failure: fatal message, exit status 1. -/
theorem capped_advance_applies_all_pending (eng : Engine) (db : Database)
    (prog : String) (rest : List String) (N : Int)
    (hclean : db.dirty = false)
    (hver : ∀ v, db.version = some v → versionExists eng.source v = true)
    (hexec : ∀ m ∈ versionsAbove eng.source db.version,
      eng.exec (newMigration m (some m.version)) = none)
    (hsteps : parseSteps rest = .ok N)
    (hk : 1 ≤ (versionsAbove eng.source db.version).length)
    (hN : ((versionsAbove eng.source db.version).length : Int) < N) :
    main (engineEnv eng db) (prog :: "up" :: rest) =
      fatalRun [Event.migrateNew, Event.steps N]
        ("Migration failed: " ++
          (EngineError.errShortLimit
            (N - ((versionsAbove eng.source db.version).length : Int)).toNat).text eng) ∧
    (main (engineEnv eng db) (prog :: "up" :: rest)).exitCode = 1 ∧
    (databaseAfter eng db (main (engineEnv eng db) (prog :: "up" :: rest))).applied =
      db.applied ++
        (versionsAbove eng.source db.version).map (fun m => newMigration m (some m.version)) ∧
    ((versionsAbove eng.source db.version).map (fun m => m.version)).Pairwise
      (fun a b => a < b) ∧
    (databaseAfter eng db (main (engineEnv eng db) (prog :: "up" :: rest))).version =
      (versionsAbove eng.source db.version).getLast?.map (fun m => m.version) ∧
    (databaseAfter eng db (main (engineEnv eng db) (prog :: "up" :: rest))).dirty = false := by
  have hpos : 0 < N := by omega
  have h0 : ¬ N = 0 := by omega
  have hread := readUp_short eng.source db.version N hver hk hN
  have hexec2 : ∀ m ∈ (versionsAbove eng.source db.version).map
      (fun m => newMigration m (some m.version)), eng.exec m = none := by
    intro m hm
    obtain ⟨a, ha, rfl⟩ := List.mem_map.mp hm
    exact hexec a ha
  have hsteps2 : Steps eng N db =
      (some (.errShortLimit (N - ((versionsAbove eng.source db.version).length : Int)).toNat),
        ⟨(((versionsAbove eng.source db.version).map
            (fun m => newMigration m (some m.version))).map
              (fun m => m.targetVersion)).getLastD db.version,
          db.dirty && ((versionsAbove eng.source db.version).map
            (fun m => newMigration m (some m.version))).isEmpty,
          db.applied ++ (versionsAbove eng.source db.version).map
            (fun m => newMigration m (some m.version))⟩) := by
    simp only [Steps, if_neg h0, hclean, Bool.false_eq_true, if_false, if_pos hpos, hread]
    rw [runMigrations_all_ok eng.exec _ _ db hexec2]
    simp only [hclean]
  have hm := main_accepted (engineEnv eng db) prog "up" rest N rfl (Or.inl rfl) hsteps
  have harg : stepsArg "up" N = N := by simp [stepsArg]
  rw [harg] at hm
  have hres : (engineEnv eng db).Steps N =
      .other ((EngineError.errShortLimit
        (N - ((versionsAbove eng.source db.version).length : Int)).toNat).text eng) := by
    simp only [engineEnv, hsteps2, toStepsResult]
  have hdb := databaseAfter_handleResult eng db N "up" ((engineEnv eng db).Steps N)
  rw [← hm] at hdb
  rw [hdb, hsteps2]
  rw [hres] at hm
  rw [hm]
  refine ⟨rfl, rfl, rfl, versionsAbove_ascending _ _, ?_, ?_⟩
  · exact getLastD_targets _ _ (by intro h; rw [h] at hk; simp at hk)
  · simp [hclean]

/-- The amended C5 at `migrate up 100` with the source `{v1, v2, v3}` and a
clean store at version 1. -/
theorem capped_advance_applies_all_pending_witness :
    main (engineEnv engine123 ⟨some 1, false, []⟩) ("migrate" :: "up" :: ["100"]) =
      fatalRun [Event.migrateNew, Event.steps 100]
        ("Migration failed: " ++
          (EngineError.errShortLimit
            (100 - ((versionsAbove engine123.source (some 1)).length : Int)).toNat).text
              engine123) ∧
    (main (engineEnv engine123 ⟨some 1, false, []⟩)
      ("migrate" :: "up" :: ["100"])).exitCode = 1 ∧
    (databaseAfter engine123 ⟨some 1, false, []⟩
      (main (engineEnv engine123 ⟨some 1, false, []⟩)
        ("migrate" :: "up" :: ["100"]))).applied =
      [] ++ (versionsAbove engine123.source (some 1)).map
        (fun m => newMigration m (some m.version)) ∧
    ((versionsAbove engine123.source (some 1)).map (fun m => m.version)).Pairwise
      (fun a b => a < b) ∧
    (databaseAfter engine123 ⟨some 1, false, []⟩
      (main (engineEnv engine123 ⟨some 1, false, []⟩)
        ("migrate" :: "up" :: ["100"]))).version =
      (versionsAbove engine123.source (some 1)).getLast?.map (fun m => m.version) ∧
    (databaseAfter engine123 ⟨some 1, false, []⟩
      (main (engineEnv engine123 ⟨some 1, false, []⟩)
        ("migrate" :: "up" :: ["100"]))).dirty = false :=
  capped_advance_applies_all_pending engine123 ⟨some 1, false, []⟩ "migrate" ["100"] 100 rfl
    (by decide) (fun _ _ => rfl) (by decide) (by decide) (by decide)

/-! ## The catalog listing handlers -/

theorem scanRows_all_ok {ρ α : Type} (mk : ρ → α) (rs : List ρ) (acc : List α) :
    scanRows mk (rs.map Except.ok) acc = .ok (acc ++ rs.map mk) := by
  induction rs generalizing acc with
  | nil => simp [scanRows]
  | cons r rs ih => simp [scanRows, ih]

theorem scanRows_some_error {ρ α : Type} (mk : ρ → α) (items : List (Except String ρ))
    (acc : List α)
    (h : items.any (fun r => match r with | .error _ => true | .ok _ => false) = true) :
    ∃ e, scanRows mk items acc = .error e := by
  induction items generalizing acc with
  | nil => simp at h
  | cons r items ih =>
    cases r with
    | error e => exact ⟨e, rfl⟩
    | ok fields =>
      simp only [List.any_cons, Bool.false_or] at h
      exact ih _ h

theorem listHandler_all_ok {ρ α : Type} (mk : ρ → α) (templateName : String) (rs : List ρ) :
    listHandler mk templateName (.ok ⟨rs.map Except.ok, none⟩) =
      .render (rs.map mk) templateName := by
  simp [listHandler, scanRows_all_ok]

theorem listHandler_error {ρ α : Type} (mk : ρ → α) (templateName : String)
    (query : Except String (Rows ρ)) (h : reportsError query = true) :
    ∃ msg, listHandler mk templateName query = .httpError 500 msg := by
  cases query with
  | error e => exact ⟨_, rfl⟩
  | ok rows =>
    simp only [reportsError, Bool.or_eq_true] at h
    simp only [listHandler]
    cases hs : scanRows mk rows.items [] with
    | error e => exact ⟨_, rfl⟩
    | ok data =>
      rcases h with h | h
      · obtain ⟨e, he⟩ := scanRows_some_error mk rows.items [] h
        rw [he] at hs
        cases hs
      · cases he : rows.err with
        | none => rw [he] at h; simp at h
        | some e => exact ⟨_, rfl⟩

/-- C10: for every sequence of rows the catalog query returns without error,
`listTablesHandler` and `listTableSchemasHandler` pass to the renderer exactly
one record per row, in the order of the query, with the fields of the row
copied unchanged; and whenever the query, a row scan or the row iteration
reports an error, the handler answers with HTTP status 500 and does not call
the renderer. -/
theorem handlers_render_every_row_or_fail
    (tables : List (String × String))
    (columns : List (String × String × String × String × String))
    (qt : Except String (Rows (String × String)))
    (qc : Except String (Rows (String × String × String × String × String)))
    (ht : reportsError qt = true) (hc : reportsError qc = true) :
    listTablesHandler (.ok ⟨tables.map Except.ok, none⟩) =
      .render (tables.map (fun f => TableInfo.mk f.1 f.2)) "tables" ∧
    (tables.map (fun f => TableInfo.mk f.1 f.2)).length = tables.length ∧
    listTableSchemasHandler (.ok ⟨columns.map Except.ok, none⟩) =
      .render (columns.map (fun f => ColumnInfo.mk f.1 f.2.1 f.2.2.1 f.2.2.2.1 f.2.2.2.2))
        "table-schemas" ∧
    (columns.map
      (fun f => ColumnInfo.mk f.1 f.2.1 f.2.2.1 f.2.2.2.1 f.2.2.2.2)).length = columns.length ∧
    (∃ msg, listTablesHandler qt = .httpError 500 msg) ∧
    (∀ data name, listTablesHandler qt ≠ .render data name) ∧
    (∃ msg, listTableSchemasHandler qc = .httpError 500 msg) ∧
    (∀ data name, listTableSchemasHandler qc ≠ .render data name) := by
  obtain ⟨mt, hmt⟩ := listHandler_error (fun f => TableInfo.mk f.1 f.2) "tables" qt ht
  obtain ⟨mc, hmc⟩ := listHandler_error
    (fun f => ColumnInfo.mk f.1 f.2.1 f.2.2.1 f.2.2.2.1 f.2.2.2.2) "table-schemas" qc hc
  refine ⟨listHandler_all_ok _ _ _, List.length_map _ _, listHandler_all_ok _ _ _,
    List.length_map _ _, ⟨mt, hmt⟩, ?_, ⟨mc, hmc⟩, ?_⟩
  · intro data name h
    rw [listTablesHandler, hmt] at h
    cases h
  · intro data name h
    rw [listTableSchemasHandler, hmc] at h
    cases h

/-- C10 at two table rows, one column row, a failing row scan and a failing iteration. -/
theorem handlers_render_every_row_or_fail_witness :
    listTablesHandler (.ok ⟨[("public", "users"), ("public", "orders")].map Except.ok, none⟩) =
      .render ([("public", "users"), ("public", "orders")].map
        (fun f => TableInfo.mk f.1 f.2)) "tables" ∧
    ([("public", "users"), ("public", "orders")].map
      (fun f => TableInfo.mk f.1 f.2)).length = [("public", "users"), ("public", "orders")].length ∧
    listTableSchemasHandler
        (.ok ⟨[("public", "users", "id", "integer", "NO")].map Except.ok, none⟩) =
      .render ([("public", "users", "id", "integer", "NO")].map
        (fun f => ColumnInfo.mk f.1 f.2.1 f.2.2.1 f.2.2.2.1 f.2.2.2.2)) "table-schemas" ∧
    ([("public", "users", "id", "integer", "NO")].map
      (fun f => ColumnInfo.mk f.1 f.2.1 f.2.2.1 f.2.2.2.1 f.2.2.2.2)).length =
        [("public", "users", "id", "integer", "NO")].length ∧
    (∃ msg, listTablesHandler (.ok ⟨[.ok ("public", "users"), .error "bad row"], none⟩) =
      .httpError 500 msg) ∧
    (∀ data name, listTablesHandler (.ok ⟨[.ok ("public", "users"), .error "bad row"], none⟩) ≠
      .render data name) ∧
    (∃ msg, listTableSchemasHandler (.ok ⟨[], some "connection lost"⟩) = .httpError 500 msg) ∧
    (∀ data name,
      listTableSchemasHandler (.ok ⟨[], some "connection lost"⟩) ≠ .render data name) :=
  handlers_render_every_row_or_fail [("public", "users"), ("public", "orders")]
    [("public", "users", "id", "integer", "NO")]
    (.ok ⟨[.ok ("public", "users"), .error "bad row"], none⟩)
    (.ok ⟨[], some "connection lost"⟩) rfl rfl

end GoMigration
